import Mathlib

/-!
Extendible hashing: `project1/src/hash/extendible_hash.cpp` and
`project1/src/include/hash/extendible_hash.h`.

A shallow embedding of the two classes of the file, `Bucket<K, V>` and
`ExtendibleHash<K, V>`, as the source is written.

Modelling choices.

* **Undefined behaviour.**  A function whose body can do something that C++ leaves undefined
  returns a `Result`: `Result.ok` with what it returns and the state afterwards, or
  `Result.undefined` with the reason (`Undefined`).  Nothing is assumed about an undefined
  call: the model does not say that it returns, nor what it leaves behind.
* **Memory and lifetimes.**  The directory `std::vector<Bucket<K, V>*> buckets` holds
  addresses.  The table state carries the store of bucket objects, `store`; an address is an
  index into it, and every object has a flag `alive`.  The only objects whose address the
  source takes are automatic objects: `b1`, `b2` of the constructor (`buckets.push_back(&b1)`)
  and `s_buckets` of `Insert` (`&(s_buckets.first)`, `&(s_buckets.second)`).  Their lifetime
  ends when the function returns, so in the state after the call they are not alive, and
  reading one through its address (`deref`) is `Undefined.deadObject`.
* **Iterators.**  The doubling loop of `Insert` takes `begin` and `end` of `buckets` and then
  calls `buckets.push_back` inside the loop.  `push_back` invalidates the iterator `end`, and
  `begin` as well when the vector reallocates; the loop uses both after the first `push_back`
  (`doubleLoop`).
* **Integers.**  `depth`, `bucket_num`, `bucket_id` and the loop counter are `int`: they are
  `Int` here, with `++`, `- 1` and `1 << s` undefined outside the range of `int` (`intIncr`,
  `intDecr`, `shiftOne`).  `1 << 31` is the value `INT_MIN`, as on the compilers the project
  builds with.  `size_t` values are natural numbers below `2 ^ 64`; an `int` used where a
  `size_t` is expected is converted by `toSizeT`.
* **Hashing.**  `std::hash<K>` is a parameter `stdHash : K → Nat`, reduced modulo `2 ^ 64`.
* **Out parameters.**  `bool Find(const K&, V&)` becomes a function to `Option V`:
  `some v` is `true` with `value = v`, `none` is `false`.
* **Locks.**  The members `mtx` are left out and every operation runs alone.  With them
  `Bucket` cannot be copied, which `Split` does when it returns its pair; the embedding reads
  `Split` as returning the two buckets it built.
-/

set_option linter.dupNamespace false

namespace cmudb

variable {K V : Type}

/-- Why a call has no defined result. -/
inductive Undefined where
  /-- An object is read or written through its address after its lifetime has ended, or
  through an address that is not the address of an object. -/
  | deadObject
  /-- An iterator of a vector is used after a `push_back` that invalidated it. -/
  | invalidIterator
  /-- A vector is indexed at or beyond `size()`. -/
  | outOfRange
  /-- An `int` computation leaves the range of `int`. -/
  | intOverflow
  /-- An `int` is shifted by a negative count or by 32 or more. -/
  | badShift
  deriving DecidableEq, Repr

/-- What a call does: it returns `a`, or its behaviour is undefined. -/
inductive Result (α : Type) where
  | ok (a : α)
  | undefined (why : Undefined)
  deriving DecidableEq, Repr

/-- Sequencing: an undefined step leaves everything after it undefined. -/
def Result.bind {α β : Type} (r : Result α) (f : α → Result β) : Result β :=
  match r with
  | Result.ok a => f a
  | Result.undefined why => Result.undefined why

instance : Monad Result where
  pure := Result.ok
  bind := Result.bind

/-- The largest `int`. -/
def INT_MAX : Int := 2147483647

/-- The smallest `int`. -/
def INT_MIN : Int := -2147483648

/-- The value of `x + 1` (`x ++`) on an `int`. -/
def intIncr (x : Int) : Result Int :=
  if x < INT_MAX then Result.ok (x + 1) else Result.undefined Undefined.intOverflow

/-- The value of `x - 1` on an `int`. -/
def intDecr (x : Int) : Result Int :=
  if INT_MIN < x then Result.ok (x - 1) else Result.undefined Undefined.intOverflow

/-- The value of `1 << s` on an `int`. -/
def shiftOne (s : Int) : Result Int :=
  if 0 ≤ s ∧ s ≤ 30 then Result.ok (2 ^ s.toNat)
  else if s = 31 then Result.ok INT_MIN
  else Result.undefined Undefined.badShift

/-- The conversion of an `int` to `size_t`. -/
def toSizeT (x : Int) : Nat :=
  (x % 2 ^ 64).toNat

/-- A bucket object: `items`, `depth` and `bucket_size` of `class Bucket`. -/
structure Bucket (K V : Type) where
  items : List (K × V)
  depth : Int
  bucket_size : Nat
  deriving DecidableEq, Repr

/-- The constructor `Bucket(size_t size, int d)`: no items. -/
def Bucket.Bucket (size : Nat) (d : Int) : cmudb.Bucket K V :=
  { items := [], depth := d, bucket_size := size }

/-- `Bucket::IsFull`: `items.size() >= bucket_size`. -/
def Bucket.IsFull (b : cmudb.Bucket K V) : Bool :=
  decide (b.items.length ≥ b.bucket_size)

/-- The loop of `Bucket::Find`: the value of the first item whose key is `key`. -/
def Bucket.findLoop [DecidableEq K] (key : K) : List (K × V) → Option V
  | [] => none
  | item :: rest => if item.1 = key then some item.2 else Bucket.findLoop key rest

/-- `Bucket::Find`. -/
def Bucket.Find [DecidableEq K] (b : cmudb.Bucket K V) (key : K) : Option V :=
  Bucket.findLoop key b.items

/-- `Bucket::Insert`: `items.push_back(make_pair(key, value))`. -/
def Bucket.Insert (b : cmudb.Bucket K V) (key : K) (value : V) : cmudb.Bucket K V :=
  { b with items := b.items ++ [(key, value)] }

/-- The loop of `Bucket::Remove`: erase the first item whose key is `key`; `none` when the
loop ends without a match. -/
def Bucket.removeLoop [DecidableEq K] (key : K) : List (K × V) → Option (List (K × V))
  | [] => none
  | item :: rest =>
    if item.1 = key then some rest
    else (Bucket.removeLoop key rest).map (fun l => item :: l)

/-- `Bucket::Remove`: the returned flag and the bucket afterwards. -/
def Bucket.Remove [DecidableEq K] (b : cmudb.Bucket K V) (key : K) : Bool × cmudb.Bucket K V :=
  match Bucket.removeLoop key b.items with
  | some l => (true, { b with items := l })
  | none => (false, b)

/-- `Bucket::HashCode`: `std::hash<K>{}(key)`, a `size_t`. -/
def Bucket.HashCode (stdHash : K → Nat) (key : K) : Nat :=
  stdHash key % 2 ^ 64

/-- The loop of `Bucket::Split`, with `depth` the depth after `depth ++`: each item goes to the
back of `b1` when `HashCode(item.first) & (1 << (depth - 1))` is non-zero and to the back of
`b0` otherwise.  The shift is evaluated once for every item. -/
def Bucket.splitLoop (stdHash : K → Nat) (depth : Int) :
    List (K × V) → cmudb.Bucket K V → cmudb.Bucket K V →
      Result (cmudb.Bucket K V × cmudb.Bucket K V)
  | [], b0, b1 => Result.ok (b0, b1)
  | item :: rest, b0, b1 => do
    let d ← intDecr depth
    let bit ← shiftOne d
    if Bucket.HashCode stdHash item.1 &&& toSizeT bit ≠ 0 then
      Bucket.splitLoop stdHash depth rest b0 { b1 with items := b1.items ++ [item] }
    else
      Bucket.splitLoop stdHash depth rest { b0 with items := b0.items ++ [item] } b1

/-- `Bucket::Split`: the bucket itself after `depth ++` (its items stay), and the pair
`(b0, b1)` it returns. -/
def Bucket.Split (stdHash : K → Nat) (b : cmudb.Bucket K V) :
    Result (cmudb.Bucket K V × (cmudb.Bucket K V × cmudb.Bucket K V)) := do
  let depth ← intIncr b.depth
  let s ← Bucket.splitLoop stdHash depth b.items
    (Bucket.Bucket b.bucket_size depth) (Bucket.Bucket b.bucket_size depth)
  pure ({ b with depth := depth }, s)

/-- `Bucket::GetLocalDepth`. -/
def Bucket.GetLocalDepth (b : cmudb.Bucket K V) : Int :=
  b.depth

/-- A bucket object of the store and whether its lifetime has not ended. -/
structure Cell (K V : Type) where
  obj : Bucket K V
  alive : Bool
  deriving DecidableEq, Repr

/-- The table: the store of bucket objects, and the members `buckets` (an address per slot),
`depth`, `bucket_num`, `bucket_size` of `class ExtendibleHash`. -/
structure ExtendibleHash (K V : Type) where
  store : List (Cell K V)
  buckets : List Nat
  depth : Int
  bucket_num : Int
  bucket_size : Nat
  deriving DecidableEq, Repr

/-- The constructor `ExtendibleHash(size_t size)`.  `b1` and `b2` are automatic objects of the
constructor; their addresses `0` and `1` are pushed to `buckets`; when the constructor returns
their lifetime ends. -/
def ExtendibleHash.ExtendibleHash (size : Nat) : cmudb.ExtendibleHash K V :=
  { store := [{ obj := Bucket.Bucket size 1, alive := false },
              { obj := Bucket.Bucket size 1, alive := false }]
    buckets := [0, 1]
    depth := 1
    bucket_num := 2
    bucket_size := size }

/-- Reading `*p`, the bucket object at address `p`. -/
def ExtendibleHash.deref (t : cmudb.ExtendibleHash K V) (p : Nat) : Result (Bucket K V) :=
  match t.store[p]? with
  | some c => if c.alive then Result.ok c.obj else Result.undefined Undefined.deadObject
  | none => Result.undefined Undefined.deadObject

/-- Reading `buckets[i]`. -/
def ExtendibleHash.readSlot (t : cmudb.ExtendibleHash K V) (i : Nat) : Result Nat :=
  match t.buckets[i]? with
  | some p => Result.ok p
  | none => Result.undefined Undefined.outOfRange

/-- The assignment `buckets[i] = p` on a slot vector. -/
def ExtendibleHash.writeSlot (buckets : List Nat) (i : Nat) (p : Nat) : Result (List Nat) :=
  if i < buckets.length then Result.ok (buckets.set i p)
  else Result.undefined Undefined.outOfRange

/-- `ExtendibleHash::HashKey`: `std::hash<K>{}(key) & ((1 << depth) - 1)`. -/
def ExtendibleHash.HashKey (stdHash : K → Nat) (t : cmudb.ExtendibleHash K V) (key : K) :
    Result Nat := do
  let s ← shiftOne t.depth
  let m ← intDecr s
  pure (stdHash key % 2 ^ 64 &&& toSizeT m)

/-- `ExtendibleHash::GetGlobalDepth`. -/
def ExtendibleHash.GetGlobalDepth (t : cmudb.ExtendibleHash K V) : Int :=
  t.depth

/-- `ExtendibleHash::GetLocalDepth`: `buckets[bucket_id] -> GetLocalDepth()`. -/
def ExtendibleHash.GetLocalDepth (t : cmudb.ExtendibleHash K V) (bucket_id : Int) :
    Result Int := do
  let p ← t.readSlot (toSizeT bucket_id)
  let b ← t.deref p
  pure b.GetLocalDepth

/-- `ExtendibleHash::GetNumBuckets`. -/
def ExtendibleHash.GetNumBuckets (t : cmudb.ExtendibleHash K V) : Int :=
  t.bucket_num

/-- `ExtendibleHash::Find`: `buckets[HashKey(key)] -> Find(key, value)`. -/
def ExtendibleHash.Find [DecidableEq K] (stdHash : K → Nat) (t : cmudb.ExtendibleHash K V)
    (key : K) : Result (Option V) := do
  let hash_addr ← t.HashKey stdHash key
  let p ← t.readSlot hash_addr
  let b ← t.deref p
  pure (b.Find key)

/-- `ExtendibleHash::Remove`: the returned flag and the table afterwards. -/
def ExtendibleHash.Remove [DecidableEq K] (stdHash : K → Nat) (t : cmudb.ExtendibleHash K V)
    (key : K) : Result (Bool × cmudb.ExtendibleHash K V) := do
  let hash_addr ← t.HashKey stdHash key
  let p ← t.readSlot hash_addr
  let b ← t.deref p
  pure ((b.Remove key).1,
    { t with store := t.store.set p { obj := (b.Remove key).2, alive := true } })

/-- The `while` loop of the doubling branch, from `begin = buckets.begin()`,
`end = buckets.end()`; it returns the pointers it pushed.  On an empty vector the test
`begin != end` fails at once.  Otherwise the first iteration runs `buckets.push_back(*begin)`,
which invalidates `end` (and `begin`, when the vector reallocates), and then `begin ++` and the
test `begin != end` use them. -/
def ExtendibleHash.doubleLoop : List Nat → Result (List Nat)
  | [] => Result.ok []
  | _ :: _ => Result.undefined Undefined.invalidIterator

/-- The `for` loop of the branch without doubling, over the values `is` of `i`: where
`(i & mask) == mask_addr`, `buckets[i]` becomes `second` when `i & top_bit` is non-zero and
`first` otherwise. -/
def ExtendibleHash.repointLoop (mask mask_addr top_bit first second : Nat) :
    List Nat → List Nat → Result (List Nat)
  | [], buckets => Result.ok buckets
  | i :: is, buckets =>
    if i &&& mask = mask_addr then
      if i &&& top_bit ≠ 0 then do
        let bs ← ExtendibleHash.writeSlot buckets i second
        ExtendibleHash.repointLoop mask mask_addr top_bit first second is bs
      else do
        let bs ← ExtendibleHash.writeSlot buckets i first
        ExtendibleHash.repointLoop mask mask_addr top_bit first second is bs
    else
      ExtendibleHash.repointLoop mask mask_addr top_bit first second is buckets

/-- `ExtendibleHash::Insert`.  `s_buckets` is an automatic object of `Insert`: the two buckets
it holds get the addresses `store.length` and `store.length + 1`, and their lifetime ends when
`Insert` returns.  In the branch without doubling `top_bit` and `mask` are not negative when
they are defined, so `&` on them is `&&&` on natural numbers; the loop counter `i` is an
`int`. -/
def ExtendibleHash.Insert (stdHash : K → Nat) (t : cmudb.ExtendibleHash K V)
    (key : K) (value : V) : Result (cmudb.ExtendibleHash K V) := do
  let hash_addr ← t.HashKey stdHash key
  let b ← t.readSlot hash_addr
  let bucket ← t.deref b
  if bucket.IsFull then
    let s ← (bucket.Insert key value).Split stdHash
    let first := t.store.length
    let second := t.store.length + 1
    let store := t.store.set b { obj := s.1, alive := true }
      ++ [{ obj := s.2.1, alive := false }, { obj := s.2.2, alive := false }]
    let bucket_num ← intIncr t.bucket_num
    if s.1.GetLocalDepth > t.depth then
      let depth ← intIncr t.depth
      let pushed ← ExtendibleHash.doubleLoop t.buckets
      let buckets1 ← ExtendibleHash.writeSlot (t.buckets ++ pushed) hash_addr first
      let d ← intDecr depth
      let bit ← shiftOne d
      let buckets2 ← ExtendibleHash.writeSlot buckets1 (hash_addr ||| toSizeT bit) second
      pure { store := store, buckets := buckets2, depth := depth, bucket_num := bucket_num,
             bucket_size := t.bucket_size }
    else
      let local_depth := s.1.GetLocalDepth
      let d ← intDecr local_depth
      let top_bit ← shiftOne d
      let mask ← intDecr top_bit
      let mask_addr := hash_addr &&& toSizeT mask
      if (t.buckets.length : Int) > INT_MAX then Result.undefined Undefined.intOverflow
      else
        let buckets ← ExtendibleHash.repointLoop mask.toNat mask_addr top_bit.toNat first second
          (List.range t.buckets.length) t.buckets
        pure { store := store, buckets := buckets, depth := t.depth, bucket_num := bucket_num,
               bucket_size := t.bucket_size }
  else
    pure { t with store := t.store.set b { obj := bucket.Insert key value, alive := true } }

/-- The operations of the public interface. -/
inductive Op (K V : Type) where
  | insert (key : K) (value : V)
  | remove (key : K)
  | find (key : K)
  | getGlobalDepth
  | getLocalDepth (bucket_id : Int)
  | getNumBuckets

/-- The table after one operation.  `Find` and the getters do not write the table. -/
def ExtendibleHash.step [DecidableEq K] (stdHash : K → Nat) (t : cmudb.ExtendibleHash K V) :
    Op K V → Result (cmudb.ExtendibleHash K V)
  | Op.insert key value => t.Insert stdHash key value
  | Op.remove key => do
    let r ← t.Remove stdHash key
    pure r.2
  | Op.find key => do
    let _ ← t.Find stdHash key
    pure t
  | Op.getGlobalDepth => pure t
  | Op.getLocalDepth bucket_id => do
    let _ ← t.GetLocalDepth bucket_id
    pure t
  | Op.getNumBuckets => pure t

/-- Inserting a sequence of pairs, first to last. -/
def ExtendibleHash.insertAll (stdHash : K → Nat) :
    cmudb.ExtendibleHash K V → List (K × V) → Result (cmudb.ExtendibleHash K V)
  | t, [] => Result.ok t
  | t, kv :: kvs => do
    let t1 ← t.Insert stdHash kv.1 kv.2
    ExtendibleHash.insertAll stdHash t1 kvs

/-- The hash of the examples: `std::hash` of an integer or pointer key on the usual standard
libraries, the identity. -/
def intHash : Nat → Nat :=
  fun k => k

/-- An example bucket: capacity 2, local depth 1, after `Insert(0, 10)` and `Insert(4, 12)`; it
is full. -/
def fullBucket : Bucket Nat Nat :=
  ((Bucket.Bucket 2 1).Insert 0 10).Insert 4 12

/-- An example bucket of local depth 31 that holds one pair, whose key has the hash `2 ^ 32`. -/
def deepBucket : Bucket Nat Nat :=
  (Bucket.Bucket 2 31).Insert 4294967296 7

/-- An example table state in which slot 0 holds the address of a bucket that is alive and
full with local depth 1: the state the body of `Insert` needs to reach its doubling branch. -/
def liveTable : ExtendibleHash Nat Nat :=
  { store := [{ obj := fullBucket, alive := true }, { obj := Bucket.Bucket 2 1, alive := true }]
    buckets := [0, 1]
    depth := 1
    bucket_num := 2
    bucket_size := 2 }

/-- An example table state of global depth 2 in which slots 0 and 2 hold the address of a
bucket that is alive and full with local depth 1: the state the body of `Insert` needs to
reach its branch without doubling. -/
def sharedLiveTable : ExtendibleHash Nat Nat :=
  { store := [{ obj := fullBucket, alive := true }, { obj := Bucket.Bucket 2 1, alive := true }]
    buckets := [0, 1, 0, 1]
    depth := 2
    bucket_num := 2
    bucket_size := 2 }

/-- The tables that calls of `Insert` and `Remove` with a defined result lead to from the
table the constructor builds. -/
inductive Reachable [DecidableEq K] (stdHash : K → Nat) : cmudb.ExtendibleHash K V → Prop
  | init (size : Nat) : Reachable stdHash (ExtendibleHash.ExtendibleHash size)
  | insert {t t' : cmudb.ExtendibleHash K V} (key : K) (value : V) :
      Reachable stdHash t → t.Insert stdHash key value = Result.ok t' → Reachable stdHash t'
  | remove {t t' : cmudb.ExtendibleHash K V} (key : K) (found : Bool) :
      Reachable stdHash t → t.Remove stdHash key = Result.ok (found, t') →
      Reachable stdHash t'

/-! ## Sequencing and `int` arithmetic -/

theorem ok_bind {α β : Type} (a : α) (f : α → Result β) : (Result.ok a >>= f) = f a :=
  rfl

theorem undefined_bind {α β : Type} (why : Undefined) (f : α → Result β) :
    (Result.undefined why >>= f) = Result.undefined why :=
  rfl

theorem pure_eq_ok {α : Type} (a : α) : (pure a : Result α) = Result.ok a :=
  rfl

theorem intIncr_ok (x : Int) (h : x < 2147483647) : intIncr x = Result.ok (x + 1) := by
  simp [intIncr, INT_MAX, h]

theorem intDecr_ok (x : Int) (h : -2147483648 < x) : intDecr x = Result.ok (x - 1) := by
  simp [intDecr, INT_MIN, h]

theorem shiftOne_ok (s : Int) (h0 : 0 ≤ s) (h30 : s ≤ 30) :
    shiftOne s = Result.ok (2 ^ s.toNat) := by
  simp [shiftOne, h0, h30]

theorem toSizeT_two_pow (n : Nat) (h : n ≤ 30) : toSizeT (2 ^ n) = 2 ^ n := by
  have hlt : (2 : Int) ^ n < 2 ^ 64 :=
    lt_of_le_of_lt (pow_le_pow_right₀ (by norm_num) h) (by norm_num)
  have hnn : (0 : Int) ≤ 2 ^ n := by positivity
  unfold toSizeT
  rw [Int.emod_eq_of_lt hnn hlt]
  have : ((2 : Int) ^ n) = ((2 ^ n : Nat) : Int) := by push_cast; rfl
  rw [this, Int.toNat_natCast]

theorem and_two_pow_ne_zero (x n : Nat) : x &&& 2 ^ n ≠ 0 ↔ x.testBit n = true := by
  constructor
  · intro h
    obtain ⟨i, hi⟩ := Nat.ne_zero_implies_bit_true h
    rw [Nat.testBit_and, Bool.and_eq_true, Nat.testBit_two_pow] at hi
    have hni : n = i := by simpa using hi.2
    subst hni
    exact hi.1
  · intro h hz
    have hb : (x &&& 2 ^ n).testBit n = true := by
      rw [Nat.testBit_and, Nat.testBit_two_pow_self, Bool.and_true]
      exact h
    rw [hz] at hb
    simp at hb

/-! ## Buckets -/

theorem findLoop_append [DecidableEq K] (key key' : K) (value : V) (l : List (K × V)) :
    Bucket.findLoop key (l ++ [(key', value)])
      = match Bucket.findLoop key l with
        | some x => some x
        | none => if key' = key then some value else none := by
  induction l with
  | nil => simp [Bucket.findLoop]
  | cons it rest ih =>
    by_cases h : it.1 = key
    · simp [Bucket.findLoop, h]
    · simp only [List.cons_append, Bucket.findLoop, if_neg h]
      exact ih

theorem filter_split_length {α : Type} (p : α → Bool) (l : List α) :
    (l.filter (fun a => !p a)).length + (l.filter p).length = l.length := by
  induction l with
  | nil => rfl
  | cons a rest ih =>
    cases h : p a
    · simp only [List.filter_cons, h, Bool.not_false, if_true, List.length_cons]
      simp only [Bool.false_eq_true, if_false]
      omega
    · simp only [List.filter_cons, h, Bool.not_true, if_true, List.length_cons]
      simp only [Bool.false_eq_true, if_false]
      omega

theorem splitLoop_eq (stdHash : K → Nat) (d : Int) (h0 : 0 ≤ d) (h30 : d ≤ 30)
    (l : List (K × V)) (b0 b1 : Bucket K V) :
    Bucket.splitLoop stdHash (d + 1) l b0 b1 =
      Result.ok
        ({ b0 with items := b0.items ++
            l.filter (fun it => !(Bucket.HashCode stdHash it.1).testBit d.toNat) },
         { b1 with items := b1.items ++
            l.filter (fun it => (Bucket.HashCode stdHash it.1).testBit d.toNat) }) := by
  have hdec : intDecr (d + 1) = Result.ok d := by
    rw [intDecr_ok _ (by omega)]
    simp
  have hn : d.toNat ≤ 30 := by omega
  induction l generalizing b0 b1 with
  | nil => simp [Bucket.splitLoop]
  | cons it rest ih =>
    simp only [Bucket.splitLoop, hdec, ok_bind, shiftOne_ok d h0 h30, toSizeT_two_pow _ hn]
    by_cases hb : (Bucket.HashCode stdHash it.1).testBit d.toNat = true
    · rw [if_pos ((and_two_pow_ne_zero _ _).2 hb), ih]
      simp [hb]
    · rw [if_neg (fun hh => hb ((and_two_pow_ne_zero _ _).1 hh)), ih]
      simp [hb]

theorem Split_eq (stdHash : K → Nat) (b : Bucket K V) (h0 : 0 ≤ b.depth)
    (h30 : b.depth ≤ 30) :
    b.Split stdHash =
      Result.ok
        ({ b with depth := b.depth + 1 },
         ({ items := b.items.filter
              (fun it => !(Bucket.HashCode stdHash it.1).testBit b.depth.toNat)
            depth := b.depth + 1
            bucket_size := b.bucket_size },
          { items := b.items.filter
              (fun it => (Bucket.HashCode stdHash it.1).testBit b.depth.toNat)
            depth := b.depth + 1
            bucket_size := b.bucket_size })) := by
  simp only [Bucket.Split, intIncr_ok _ (show b.depth < 2147483647 by omega), ok_bind,
    splitLoop_eq stdHash b.depth h0 h30, Bucket.Bucket, List.nil_append, pure_eq_ok]

/-! ## The table the constructor builds -/

theorem HashKey_new (stdHash : K → Nat) (size : Nat) (key : K) :
    (ExtendibleHash.ExtendibleHash size : ExtendibleHash K V).HashKey stdHash key
      = Result.ok (stdHash key % 2 ^ 64 % 2) := by
  have h1 : shiftOne 1 = Result.ok 2 := by decide
  have h2 : intDecr 2 = Result.ok 1 := by decide
  have h3 : toSizeT 1 = 1 := by decide
  simp only [ExtendibleHash.HashKey, ExtendibleHash.ExtendibleHash, h1, h2, h3, ok_bind,
    pure_eq_ok, Nat.and_one_is_mod]

theorem readSlot_new (size : Nat) (i : Nat) (hi : i < 2) :
    (ExtendibleHash.ExtendibleHash size : ExtendibleHash K V).readSlot i = Result.ok i := by
  have h2 : i = 0 ∨ i = 1 := by omega
  rcases h2 with h | h <;> subst h <;> rfl

theorem deref_new (size : Nat) (p : Nat) :
    (ExtendibleHash.ExtendibleHash size : ExtendibleHash K V).deref p
      = Result.undefined Undefined.deadObject := by
  match p with
  | 0 => rfl
  | 1 => rfl
  | n + 2 => rfl

theorem Find_new (stdHash : K → Nat) [DecidableEq K] (size : Nat) (key : K) :
    (ExtendibleHash.ExtendibleHash size : ExtendibleHash K V).Find stdHash key
      = Result.undefined Undefined.deadObject := by
  simp only [ExtendibleHash.Find, HashKey_new, ok_bind,
    readSlot_new size _ (Nat.mod_lt _ (by decide)), deref_new, undefined_bind]

theorem Remove_new (stdHash : K → Nat) [DecidableEq K] (size : Nat) (key : K) :
    (ExtendibleHash.ExtendibleHash size : ExtendibleHash K V).Remove stdHash key
      = Result.undefined Undefined.deadObject := by
  simp only [ExtendibleHash.Remove, HashKey_new, ok_bind,
    readSlot_new size _ (Nat.mod_lt _ (by decide)), deref_new, undefined_bind]

theorem Insert_new (stdHash : K → Nat) (size : Nat) (key : K) (value : V) :
    (ExtendibleHash.ExtendibleHash size : ExtendibleHash K V).Insert stdHash key value
      = Result.undefined Undefined.deadObject := by
  simp only [ExtendibleHash.Insert, HashKey_new, ok_bind,
    readSlot_new size _ (Nat.mod_lt _ (by decide)), deref_new, undefined_bind]

theorem GetLocalDepth_new (size : Nat) (i : Nat) (hi : i < 2) :
    (ExtendibleHash.ExtendibleHash size : ExtendibleHash K V).GetLocalDepth (i : Int)
      = Result.undefined Undefined.deadObject := by
  have h2 : i = 0 ∨ i = 1 := by omega
  have h0 : toSizeT 0 = 0 := by decide
  have h1 : toSizeT 1 = 1 := by decide
  rcases h2 with h | h <;> subst h
  · simp only [ExtendibleHash.GetLocalDepth, Nat.cast_zero, h0,
      readSlot_new size 0 (by decide), ok_bind, deref_new, undefined_bind]
  · simp only [ExtendibleHash.GetLocalDepth, Nat.cast_one, h1,
      readSlot_new size 1 (by decide), ok_bind, deref_new, undefined_bind]

theorem reachable_is_new (stdHash : K → Nat) [DecidableEq K] (t : ExtendibleHash K V)
    (h : Reachable stdHash t) : ∃ size, t = ExtendibleHash.ExtendibleHash size := by
  induction h with
  | init size => exact ⟨size, rfl⟩
  | insert key value _ hok ih =>
    obtain ⟨size, rfl⟩ := ih
    rw [Insert_new] at hok
    cases hok
  | remove key found _ hok ih =>
    obtain ⟨size, rfl⟩ := ih
    rw [Remove_new] at hok
    cases hok

theorem bucket_round_trip_aux [DecidableEq K] (b : Bucket K V) (k k' : K) (v : V) :
    (b.Insert k v).Find k'
      = match b.Find k' with
        | some x => some x
        | none => if k = k' then some v else none := by
  simp only [Bucket.Find, Bucket.Insert, findLoop_append]

/-! ## Round trip, removal, repeated insertion -/

/-- C1, as the code has it by design: for every bucket `b`, key `k` and value `v`,
`Bucket::Insert(k, v)` followed by `Bucket::Find(k)` reports found; the value is `v` when `b`
held no pair with key `k`, and the value of the first pair with key `k` that `b` held
otherwise (`Insert` appends, `Find` takes the first match).  What `ExtendibleHash::Insert` and
`ExtendibleHash::Find` do through the addresses in the directory is not part of the
statement. -/
theorem bucket_round_trip [DecidableEq K] (b : Bucket K V) (k : K) (v : V) :
    (b.Insert k v).Find k = some ((b.Find k).getD v) := by
  simp only [Bucket.Find, Bucket.Insert, findLoop_append]
  cases Bucket.findLoop k b.items <;> simp

/-- Counterexample to C1 as stated, identity hash.  On the table the constructor builds with
capacity 2, `Insert(0, 10)` reads the bucket of slot 0 through the address of the
constructor's local `b1`: the call has no defined result, so nothing is found afterwards.  And
on a bucket, `Insert(0, 10)` then `Insert(0, 20)` leaves `Find(0)` at the value `10`. -/
theorem round_trip_fails :
    (ExtendibleHash.ExtendibleHash 2 : ExtendibleHash Nat Nat).Insert intHash 0 10
      = Result.undefined Undefined.deadObject ∧
    (((Bucket.Bucket 2 1 : Bucket Nat Nat).Insert 0 10).Insert 0 20).Find 0 = some 10 ∧
    (((Bucket.Bucket 2 1 : Bucket Nat Nat).Insert 0 10).Insert 0 20).Find 0 ≠ some 20 :=
  ⟨by decide, by decide, by decide⟩

/-- C17, as the code has it by design: for every bucket `b`, key `k` and value `v`, a second
`Bucket::Insert(k, v)` right after the first puts one more pair `(k, v)` at the back of the
bucket, so the bucket is not as it was after the first call; what `Bucket::Find` returns is
the same as after the first call for every key, and the local depth and the capacity are
unchanged.  What `ExtendibleHash::Insert` does through the addresses in the directory is not
part of the statement. -/
theorem bucket_second_insert [DecidableEq K] (b : Bucket K V) (k : K) (v : V) :
    ((b.Insert k v).Insert k v).items = (b.Insert k v).items ++ [(k, v)] ∧
    ((b.Insert k v).Insert k v).items.length = (b.Insert k v).items.length + 1 ∧
    (∀ k', ((b.Insert k v).Insert k v).Find k' = (b.Insert k v).Find k') ∧
    ((b.Insert k v).Insert k v).depth = (b.Insert k v).depth ∧
    ((b.Insert k v).Insert k v).bucket_size = (b.Insert k v).bucket_size := by
  refine ⟨rfl, by simp [Bucket.Insert], ?_, rfl, rfl⟩
  intro k'
  have h1 := bucket_round_trip_aux (b.Insert k v) k k' v
  by_cases hk : k = k'
  · subst hk
    rw [h1, if_pos rfl]
    simp only [Bucket.Find, Bucket.Insert, findLoop_append]
    cases Bucket.findLoop k b.items <;> simp
  · rw [h1, if_neg hk]
    cases (b.Insert k v).Find k' <;> rfl

/-- Counterexample to C17 as stated, identity hash.  On the table the constructor builds with
capacity 1, the first `Insert(0, 10)` already has no defined result.  And on a bucket of
capacity 1, after one `Insert(0, 10)` the bucket holds one pair and is full, after the second
it holds two. -/
theorem second_insert_fails :
    (ExtendibleHash.ExtendibleHash 1 : ExtendibleHash Nat Nat).Insert intHash 0 10
      = Result.undefined Undefined.deadObject ∧
    ((Bucket.Bucket 1 1 : Bucket Nat Nat).Insert 0 10).items = [(0, 10)] ∧
    ((Bucket.Bucket 1 1 : Bucket Nat Nat).Insert 0 10).IsFull = true ∧
    (((Bucket.Bucket 1 1 : Bucket Nat Nat).Insert 0 10).Insert 0 10).items
      = [(0, 10), (0, 10)] :=
  ⟨by decide, by decide, by decide, by decide⟩

/-! ## `Split` and the capacity -/

/-- C12, as the code has it: for every bucket `b` whose local depth `d` is between 0 and 30
and whose item list is `E`, `Split` returns two buckets of local depth `d + 1` and the capacity
of `b`; the first holds the items of `E` whose `hash(key)` has bit `d` clear and the second
those with bit `d` set, each in the order of `E`.  Every item of `E` is in one of the two, no
item is in both, the two hold nothing else and their sizes add up to the size of `E`; `b`
itself keeps its items and gets depth `d + 1`. -/
theorem Split_partition (stdHash : K → Nat) (b : Bucket K V) (h0 : 0 ≤ b.depth)
    (h30 : b.depth ≤ 30) :
    ∃ b0 b1,
      b.Split stdHash = Result.ok ({ b with depth := b.depth + 1 }, (b0, b1)) ∧
      b0 = { items := b.items.filter
               (fun it => !(Bucket.HashCode stdHash it.1).testBit b.depth.toNat)
             depth := b.depth + 1
             bucket_size := b.bucket_size } ∧
      b1 = { items := b.items.filter
               (fun it => (Bucket.HashCode stdHash it.1).testBit b.depth.toNat)
             depth := b.depth + 1
             bucket_size := b.bucket_size } ∧
      (∀ it, it ∈ b.items ↔ (it ∈ b0.items ∨ it ∈ b1.items)) ∧
      (∀ it, ¬ (it ∈ b0.items ∧ it ∈ b1.items)) ∧
      b0.items.length + b1.items.length = b.items.length := by
  refine ⟨_, _, Split_eq stdHash b h0 h30, rfl, rfl, ?_, ?_, ?_⟩
  · intro it
    simp only [List.mem_filter]
    cases (Bucket.HashCode stdHash it.1).testBit b.depth.toNat <;> simp
  · intro it
    simp only [List.mem_filter]
    cases (Bucket.HashCode stdHash it.1).testBit b.depth.toNat <;> simp
  · exact filter_split_length (fun it => (Bucket.HashCode stdHash it.1).testBit b.depth.toNat)
      b.items

/-- Witness of C12 as amended: `fullBucket`, local depth 1, keys 0 and 4, identity hash. -/
theorem Split_partition_witness :
    ∃ b0 b1,
      fullBucket.Split intHash = Result.ok ({ fullBucket with depth := fullBucket.depth + 1 },
        (b0, b1)) ∧
      b0 = { items := fullBucket.items.filter
               (fun it => !(Bucket.HashCode intHash it.1).testBit fullBucket.depth.toNat)
             depth := fullBucket.depth + 1
             bucket_size := fullBucket.bucket_size } ∧
      b1 = { items := fullBucket.items.filter
               (fun it => (Bucket.HashCode intHash it.1).testBit fullBucket.depth.toNat)
             depth := fullBucket.depth + 1
             bucket_size := fullBucket.bucket_size } ∧
      (∀ it, it ∈ fullBucket.items ↔ (it ∈ b0.items ∨ it ∈ b1.items)) ∧
      (∀ it, ¬ (it ∈ b0.items ∧ it ∈ b1.items)) ∧
      b0.items.length + b1.items.length = fullBucket.items.length :=
  Split_partition intHash fullBucket (by decide) (by decide)

/-- Counterexample to C12 as stated: `deepBucket`, local depth 31, holds one pair whose key has
the hash `2 ^ 32`.  Bit 31 of that hash is clear, and `Split` puts the pair in the second
bucket: `1 << 31` is `INT_MIN`, which as a `size_t` has the bits 31 to 63 set. -/
theorem Split_wide_shift :
    deepBucket.depth = 31 ∧ deepBucket.items = [(4294967296, 7)] ∧
    (Bucket.HashCode intHash 4294967296).testBit 31 = false ∧
    deepBucket.Split intHash =
      Result.ok ({ items := [(4294967296, 7)], depth := 32, bucket_size := 2 },
        ({ items := [], depth := 32, bucket_size := 2 },
         { items := [(4294967296, 7)], depth := 32, bucket_size := 2 })) :=
  ⟨by decide, by decide, by decide, by decide⟩

/-- C11, what the code has: for every capacity, the table that the constructor builds has
global depth 1, bucket count 2 and two slots that hold the two different addresses 0 and 1;
the buckets at these addresses are the constructor's locals `b1` and `b2`, whose lifetime has
ended, so `GetLocalDepth(0)`, `GetLocalDepth(1)` and `Find(k)` for every key `k` have no
defined result. -/
theorem initial_state (stdHash : K → Nat) [DecidableEq K] (size : Nat) :
    (ExtendibleHash.ExtendibleHash size : ExtendibleHash K V).GetGlobalDepth = 1 ∧
    (ExtendibleHash.ExtendibleHash size : ExtendibleHash K V).GetNumBuckets = 2 ∧
    (ExtendibleHash.ExtendibleHash size : ExtendibleHash K V).buckets.length = 2 ∧
    (ExtendibleHash.ExtendibleHash size : ExtendibleHash K V).readSlot 0 = Result.ok 0 ∧
    (ExtendibleHash.ExtendibleHash size : ExtendibleHash K V).readSlot 1 = Result.ok 1 ∧
    (ExtendibleHash.ExtendibleHash size : ExtendibleHash K V).GetLocalDepth 0
      = Result.undefined Undefined.deadObject ∧
    (ExtendibleHash.ExtendibleHash size : ExtendibleHash K V).GetLocalDepth 1
      = Result.undefined Undefined.deadObject ∧
    ∀ k : K, (ExtendibleHash.ExtendibleHash size : ExtendibleHash K V).Find stdHash k
      = Result.undefined Undefined.deadObject :=
  ⟨rfl, rfl, rfl, rfl, rfl, GetLocalDepth_new size 0 (by decide),
    GetLocalDepth_new size 1 (by decide), Find_new stdHash size⟩

/-- C2, what the code has: for every capacity and every sequence of pairs that is not empty,
inserting the pairs into the table the constructor builds has no defined result: the first
`Insert` reads the bucket of its slot through the address of a local of the constructor. -/
theorem insertAll_undefined (stdHash : K → Nat) (size : Nat) (kv : K × V)
    (kvs : List (K × V)) :
    (ExtendibleHash.ExtendibleHash size : ExtendibleHash K V).insertAll stdHash (kv :: kvs)
      = Result.undefined Undefined.deadObject := by
  simp only [ExtendibleHash.insertAll, Insert_new, undefined_bind]

/-- C4, what the code has: for every capacity and key, `Remove` on the table the constructor
builds has no defined result. -/
theorem Remove_undefined (stdHash : K → Nat) [DecidableEq K] (size : Nat) (k : K) :
    (ExtendibleHash.ExtendibleHash size : ExtendibleHash K V).Remove stdHash k
      = Result.undefined Undefined.deadObject :=
  Remove_new stdHash size k

/-- C5, what the code has: on the table the constructor builds neither `Remove(k)` nor
`Find(k)` returns a flag, for any key; on a bucket, `Bucket::Remove(k)` returns `true`
exactly when `Bucket::Find(k)` reports found. -/
theorem Remove_flag_undefined (stdHash : K → Nat) [DecidableEq K] (size : Nat) (k : K) :
    (ExtendibleHash.ExtendibleHash size : ExtendibleHash K V).Remove stdHash k
      = Result.undefined Undefined.deadObject ∧
    (ExtendibleHash.ExtendibleHash size : ExtendibleHash K V).Find stdHash k
      = Result.undefined Undefined.deadObject ∧
    ∀ b : Bucket K V, (b.Remove k).1 = (b.Find k).isSome := by
  refine ⟨Remove_new stdHash size k, Find_new stdHash size k, ?_⟩
  intro b
  unfold Bucket.Remove Bucket.Find
  induction b.items with
  | nil => rfl
  | cons it rest ih =>
    by_cases h : it.1 = k
    · simp [Bucket.removeLoop, Bucket.findLoop, h]
    · simp only [Bucket.removeLoop, Bucket.findLoop, if_neg h]
      cases hr : Bucket.removeLoop k rest with
      | none => rw [hr] at ih; simpa using ih
      | some l => rw [hr] at ih; simpa using ih

/-- C6, what the code has: on the table the constructor builds, for every capacity, the
global depth is 1 and both slots can be read, and the local depth of the bucket a slot
references cannot: `GetLocalDepth(0)` and `GetLocalDepth(1)` have no defined result. -/
theorem local_depth_undefined (size : Nat) :
    (ExtendibleHash.ExtendibleHash size : ExtendibleHash K V).GetGlobalDepth = 1 ∧
    (ExtendibleHash.ExtendibleHash size : ExtendibleHash K V).GetLocalDepth 0
      = Result.undefined Undefined.deadObject ∧
    (ExtendibleHash.ExtendibleHash size : ExtendibleHash K V).GetLocalDepth 1
      = Result.undefined Undefined.deadObject :=
  ⟨rfl, GetLocalDepth_new size 0 (by decide), GetLocalDepth_new size 1 (by decide)⟩

/-- C7, what the code has: on the table the constructor builds, for every capacity, no
address reads as a bucket, so the entries of the bucket that a slot references cannot be
read. -/
theorem stored_entries_undefined (size : Nat) (p : Nat) :
    (ExtendibleHash.ExtendibleHash size : ExtendibleHash K V).deref p
      = Result.undefined Undefined.deadObject :=
  deref_new size p

/-- C9, what the code has: on the table the constructor builds, for every capacity, the
getters leave the table as it is, with global depth 1 and bucket count 2, and `Insert`,
`Remove` and `Find` have no defined result, so there is no value after them to compare. -/
theorem step_undefined (stdHash : K → Nat) [DecidableEq K] (size : Nat) (k : K) (v : V) :
    (ExtendibleHash.ExtendibleHash size : ExtendibleHash K V).step stdHash Op.getGlobalDepth
      = Result.ok (ExtendibleHash.ExtendibleHash size) ∧
    (ExtendibleHash.ExtendibleHash size : ExtendibleHash K V).step stdHash Op.getNumBuckets
      = Result.ok (ExtendibleHash.ExtendibleHash size) ∧
    (ExtendibleHash.ExtendibleHash size : ExtendibleHash K V).step stdHash (Op.insert k v)
      = Result.undefined Undefined.deadObject ∧
    (ExtendibleHash.ExtendibleHash size : ExtendibleHash K V).step stdHash (Op.remove k)
      = Result.undefined Undefined.deadObject ∧
    (ExtendibleHash.ExtendibleHash size : ExtendibleHash K V).step stdHash (Op.find k)
      = Result.undefined Undefined.deadObject := by
  refine ⟨rfl, rfl, Insert_new stdHash size k v, ?_, ?_⟩
  · simp only [ExtendibleHash.step, Remove_new, undefined_bind]
  · simp only [ExtendibleHash.step, Find_new, undefined_bind]

/-- C10, what the code has: in every table that calls with a defined result lead to,
`Find(k)` has no defined result, and neither have `Insert(k', v')` and `Remove(k')`: the
only such table is the one the constructor builds. -/
theorem other_key_undefined (stdHash : K → Nat) [DecidableEq K] (t : ExtendibleHash K V)
    (k k' : K) (v' : V) (h : Reachable stdHash t) :
    t.Find stdHash k = Result.undefined Undefined.deadObject ∧
    t.Insert stdHash k' v' = Result.undefined Undefined.deadObject ∧
    t.Remove stdHash k' = Result.undefined Undefined.deadObject := by
  obtain ⟨size, rfl⟩ := reachable_is_new stdHash t h
  exact ⟨Find_new stdHash size k, Insert_new stdHash size k' v', Remove_new stdHash size k'⟩

/-- Witness of C10: the table the constructor builds with capacity 2, keys 0 and 4. -/
theorem other_key_undefined_witness :
    (ExtendibleHash.ExtendibleHash 2 : ExtendibleHash Nat Nat).Find intHash 0
      = Result.undefined Undefined.deadObject ∧
    (ExtendibleHash.ExtendibleHash 2 : ExtendibleHash Nat Nat).Insert intHash 4 14
      = Result.undefined Undefined.deadObject ∧
    (ExtendibleHash.ExtendibleHash 2 : ExtendibleHash Nat Nat).Remove intHash 4
      = Result.undefined Undefined.deadObject :=
  other_key_undefined intHash (ExtendibleHash.ExtendibleHash 2) 0 4 14 (Reachable.init 2)

/-- C13, what the code has: in every table that calls with a defined result lead to, for
every key the slot address `HashKey(k)` is computed and the slot is read, and then `Insert`
reads the bucket `b` at that address to test `b -> IsFull()`: `b` is a local of the
constructor whose lifetime has ended, and `Insert` has no defined result. -/
theorem Insert_undefined (stdHash : K → Nat) [DecidableEq K] (t : ExtendibleHash K V) (k : K)
    (v : V) (h : Reachable stdHash t) :
    (∃ a p, t.HashKey stdHash k = Result.ok a ∧ t.readSlot a = Result.ok p ∧
      t.deref p = Result.undefined Undefined.deadObject) ∧
    t.Insert stdHash k v = Result.undefined Undefined.deadObject := by
  obtain ⟨size, rfl⟩ := reachable_is_new stdHash t h
  exact ⟨⟨_, _, HashKey_new stdHash size k, readSlot_new size _ (Nat.mod_lt _ (by decide)),
    deref_new size _⟩, Insert_new stdHash size k v⟩

/-- Witness of C13: the table the constructor builds with capacity 2 and `Insert(4, 14)`. -/
theorem Insert_undefined_witness :
    (ExtendibleHash.ExtendibleHash 2 : ExtendibleHash Nat Nat).Insert intHash 4 14
      = Result.undefined Undefined.deadObject :=
  (Insert_undefined intHash (ExtendibleHash.ExtendibleHash 2) 4 14 (Reachable.init 2)).2

/-- C14, what the code has: the doubling loop on a slot vector that is not empty has no
defined result, it uses `begin` and `end` after its own `push_back`; so the body of `Insert`
has no defined result even from the state `liveTable`, in which the addressed bucket is
alive, full and of local depth equal to the global depth; and on the table the constructor
builds `Insert` does not get as far as the loop. -/
theorem doubling_undefined :
    (∀ (p : Nat) (rest : List Nat),
      ExtendibleHash.doubleLoop (p :: rest) = Result.undefined Undefined.invalidIterator) ∧
    liveTable.Insert intHash 8 14 = Result.undefined Undefined.invalidIterator ∧
    ((ExtendibleHash.ExtendibleHash 2 : ExtendibleHash Nat Nat).insertAll intHash
      [(0, 10), (2, 12), (4, 14)]) = Result.undefined Undefined.deadObject :=
  ⟨fun _ _ => rfl, by decide, by decide⟩

/-- C15, what the code has: from the state `sharedLiveTable`, in which slots 0 and 2 hold the
address of a bucket that is alive, full and of local depth 1 below the global depth 2, the
body of `Insert(8, 14)` returns with the slots `[2, 1, 3, 1]`: slots 0 and 2 hold the
addresses of the two buckets of `s_buckets`, a local of `Insert` whose lifetime has ended, so
reading the bucket of slot 0 or of slot 2 has no defined result afterwards.  On the table the
constructor builds `Insert` has no defined result. -/
theorem repoint_children_dead :
    (∃ t', sharedLiveTable.Insert intHash 8 14 = Result.ok t' ∧
      t'.buckets = [2, 1, 3, 1] ∧ t'.depth = 2 ∧
      t'.deref 2 = Result.undefined Undefined.deadObject ∧
      t'.deref 3 = Result.undefined Undefined.deadObject ∧
      t'.Find intHash 8 = Result.undefined Undefined.deadObject) ∧
    (ExtendibleHash.ExtendibleHash 2 : ExtendibleHash Nat Nat).Insert intHash 8 14
      = Result.undefined Undefined.deadObject := by
  refine ⟨?_, by decide⟩
  have h : ∃ t', sharedLiveTable.Insert intHash 8 14 = Result.ok t' := by
    cases hr : sharedLiveTable.Insert intHash 8 14 with
    | ok t' => exact ⟨t', rfl⟩
    | undefined why =>
      have : sharedLiveTable.Insert intHash 8 14 ≠ Result.undefined why := by
        cases why <;> decide
      exact absurd hr this
  obtain ⟨t', ht⟩ := h
  have hb : (sharedLiveTable.Insert intHash 8 14).bind (fun t' => Result.ok
      (decide (t'.buckets = [2, 1, 3, 1] ∧ t'.depth = 2 ∧
        t'.deref 2 = Result.undefined Undefined.deadObject ∧
        t'.deref 3 = Result.undefined Undefined.deadObject ∧
        t'.Find intHash 8 = Result.undefined Undefined.deadObject))) = Result.ok true := by
    decide
  rw [ht] at hb
  simp only [Result.bind, Result.ok.injEq, decide_eq_true_eq] at hb
  exact ⟨t', ht, hb⟩

/-- C16, what the code has: for every capacity, key and values, on the table the constructor
builds `Insert(k, v1)` has no defined result, nor has `Insert(k, v1)` followed by
`Insert(k, v2)`, nor has `Find(k)`. -/
theorem duplicate_undefined (stdHash : K → Nat) [DecidableEq K] (size : Nat) (k : K)
    (v1 v2 : V) :
    (ExtendibleHash.ExtendibleHash size : ExtendibleHash K V).Insert stdHash k v1
      = Result.undefined Undefined.deadObject ∧
    (ExtendibleHash.ExtendibleHash size : ExtendibleHash K V).insertAll stdHash
      [(k, v1), (k, v2)] = Result.undefined Undefined.deadObject ∧
    (ExtendibleHash.ExtendibleHash size : ExtendibleHash K V).Find stdHash k
      = Result.undefined Undefined.deadObject := by
  refine ⟨Insert_new stdHash size k v1, ?_, Find_new stdHash size k⟩
  simp only [ExtendibleHash.insertAll, Insert_new, undefined_bind]

/-- C18, what the code has: on the table the constructor builds, for every capacity and key,
`HashKey(k)` is below the number of slots and the slot is read in range; the bucket at the
address read cannot be read; and the doubling loop has no defined result on any slot vector
that is not empty, so no write follows it. -/
theorem doubling_write_undefined (stdHash : K → Nat) (size : Nat) (k : K) :
    (∃ a, (ExtendibleHash.ExtendibleHash size : ExtendibleHash K V).HashKey stdHash k
        = Result.ok a ∧
      a < (ExtendibleHash.ExtendibleHash size : ExtendibleHash K V).buckets.length ∧
      (ExtendibleHash.ExtendibleHash size : ExtendibleHash K V).readSlot a = Result.ok a ∧
      (ExtendibleHash.ExtendibleHash size : ExtendibleHash K V).deref a
        = Result.undefined Undefined.deadObject) ∧
    (∀ buckets : List Nat, buckets ≠ [] →
      ExtendibleHash.doubleLoop buckets = Result.undefined Undefined.invalidIterator) := by
  refine ⟨⟨_, HashKey_new stdHash size k, Nat.mod_lt _ (by decide),
    readSlot_new size _ (Nat.mod_lt _ (by decide)), deref_new size _⟩, ?_⟩
  intro buckets hne
  cases buckets with
  | nil => exact absurd rfl hne
  | cons p rest => rfl

/-- C19, what the code has: for every capacity, the table the constructor builds has bucket
count 2 and two distinct addresses in its slots; every `Insert` and every `Remove` on it has
no defined result, so the count is not carried to a second table. -/
theorem counter_undefined (stdHash : K → Nat) [DecidableEq K] (size : Nat) :
    (ExtendibleHash.ExtendibleHash size : ExtendibleHash K V).GetNumBuckets
      = ((ExtendibleHash.ExtendibleHash size : ExtendibleHash K V).buckets.dedup.length : Int) ∧
    (∀ (k : K) (v : V),
      (ExtendibleHash.ExtendibleHash size : ExtendibleHash K V).Insert stdHash k v
        = Result.undefined Undefined.deadObject) ∧
    (∀ k : K, (ExtendibleHash.ExtendibleHash size : ExtendibleHash K V).Remove stdHash k
      = Result.undefined Undefined.deadObject) :=
  ⟨by simp [ExtendibleHash.ExtendibleHash, ExtendibleHash.GetNumBuckets],
    Insert_new stdHash size, Remove_new stdHash size⟩

end cmudb
